import Mathlib

/-!
Verification of the partitioned fetch engine of the fusionbase-python client
(the DataStream class in fusionbase/DataStream.py), shallowly embedded.

Modelling conventions:

* Python integers are Nat/Int.  Python float arithmetic (the 1.2 safety
  factor, true division, math.floor, math.ceil) is modelled by exact rational
  arithmetic; the concrete inputs appearing in the theorems below are far from
  rounding boundaries, so floor/ceil of the Python doubles agree with the
  exact values there.
* Python exceptions are modelled with Except PyErr.
* The 12-hex-character truncated sha3-256 digest that names a cache file is
  modelled by its preimage (the name string handed to the hash): the digest is
  a deterministic function of that string, so equal names yield equal digests
  and equal cache paths; hash collisions between distinct names are outside
  the model.
* json.dumps(query) is modelled as an opaque, already-serialized string.
* The filesystem is an association list from paths to file contents; a file is
  either a valid gzip-compressed JSON document holding a list of rows, or a
  corrupt (non-gzip) blob.  Rows are modelled as Nat identifiers.
-/

/-- Content of an on-disk cache file: a valid gzip file wrapping a JSON
document whose data field holds the partition's rows, or corrupt (non-gzip)
bytes such as a partially written download. -/
inductive FileContent where
  | gzipJson (rows : List Nat)
  | corrupt
deriving DecidableEq

/-- Python exceptions raised by the modelled code paths. -/
inductive PyErr where
  | valueError (msg : String)
  | zeroDivisionError
  | skipBeyondRows
  | fileNotFoundError
deriving DecidableEq

/-- Observable effects of a get_data call: the row-size estimation request,
the metadata request, and the partition data requests (the access probe is
the data request with skip 0 and limit 12). -/
inductive Ev where
  | estimateReq
  | metaReq
  | httpGet (skip limit : Nat)
deriving DecidableEq

/-- Recursion core of the chunks helper, structurally recursive on a fuel
counter.  When size is at least 1, every step consumes at least one element,
so any fuel of at least the list length makes the fuel bound unreachable. -/
def chunksOfF (size fuel : Nat) (l : List Nat) : List (List Nat) :=
  match fuel with
  | 0 => []
  | f + 1 =>
    if size = 0 then []
    else if l.isEmpty then []
    else l.take size :: chunksOfF size f (l.drop size)

/-- DataStream.py lines 196-198: the chunks helper slices an iterator into
consecutive tuples of the given size.  With size 0 the first tuple is already
empty, so iter stops immediately and no chunks are produced.  (A negative
size would make islice raise ValueError; that case is handled at the call
site.) -/
def chunksOf (size : Nat) (l : List Nat) : List (List Nat) :=
  chunksOfF size l.length l

/-- DataStream.py lines 200-208: the initial hard batch-size limit.  For a
nonnegative row-size estimate it is floor(1610612736 / (estimate * 1.2)),
which Python computes on floats and we compute exactly as
16106127360 / (12 * estimate); an estimate of exactly 0 makes Python raise
ZeroDivisionError.  A negative estimate (the -1 default) selects the fixed
5000 fallback. -/
def hard_limit_0 (average_row_size_bytes : Int) : Except PyErr Nat :=
  if 0 ≤ average_row_size_bytes then
    if average_row_size_bytes = 0 then .error .zeroDivisionError
    else .ok (16106127360 / (12 * average_row_size_bytes.toNat))
  else .ok 5000

/-- DataStream.py lines 210-213: when the initial hard limit would produce
fewer than max_batches partitions (the Python float comparison
limit / hard_limit < max_batches, exactly limit < max_batches * hard_limit),
the hard limit shrinks to ceil(limit / max_batches), bumped from 1 to 2. -/
def effective_hard_limit (limit max_batches h0 : Nat) : Nat :=
  if limit < max_batches * h0 then
    if (limit + max_batches - 1) / max_batches = 1 then 2
    else (limit + max_batches - 1) / max_batches
  else h0

/-- DataStream.py lines 220-223: a chunk of row indices becomes the pair
(first element + initial_skip, last element + 1 - first element). -/
def chunk_tuple (initial_skip : Nat) (ch : List Nat) : Nat × Nat :=
  (ch.headD 0 + initial_skip, ch.getLastD 0 + 1 - ch.headD 0)

/-- DataStream.py lines 188-228, the static method calc skip limit tuples.
A hard limit of 0 entering the comparison makes the Python float division
raise ZeroDivisionError, and an effective hard limit of 0 (reachable only for
limit = 0) makes islice raise ValueError for its negative size argument.
Pairs starting beyond stream_rows are filtered out at the end. -/
def calc_skip_limit_tuples (limit max_batches initial_skip : Nat)
    (average_row_size_bytes : Int) (stream_rows : Nat) :
    Except PyErr (List (Nat × Nat)) :=
  match hard_limit_0 average_row_size_bytes with
  | .error e => .error e
  | .ok h0 =>
    if h0 = 0 then .error .zeroDivisionError
    else
      let hard_limit := effective_hard_limit limit max_batches h0
      if hard_limit = 0 then .error (.valueError "islice size must not be negative")
      else
        let tuples := (chunksOf (hard_limit - 1) (List.range limit)).map
          (chunk_tuple initial_skip)
        .ok (tuples.filter (fun x => decide (x.1 ≤ stream_rows)))

/-- A row index r lies in the half-open row range of the partition
descriptor p, i.e. p.1 ≤ r < p.1 + p.2. -/
def containsRow (p : Nat × Nat) (r : Nat) : Bool :=
  decide (p.1 ≤ r) && decide (r < p.1 + p.2)

/-- Recursion core of the keep-first duplicate removal: the seen accumulator
holds the keys already emitted. -/
def dedup_go : List String → List String → List String
  | _, [] => []
  | seen, x :: xs =>
    if x ∈ seen then dedup_go seen xs else x :: dedup_go (x :: seen) xs

/-- DataStream.py lines 737-741: duplicate removal via list(dict.fromkeys(..)),
which keeps the first occurrence of each element in order. -/
def dedupKeepFirst (l : List String) : List String :=
  dedup_go [] l

/-- DataStream.py lines 736-741: if fields is a non-empty list, the three
Fusionbase columns are appended and duplicates are removed keeping first
occurrences; otherwise (None or an empty list) fields becomes None. -/
def prepare_fields (fields : Option (List String)) : Option (List String) :=
  match fields with
  | some fs =>
    if fs.length > 0 then
      some (dedupKeepFirst (fs ++ ["fb_id", "fb_data_version", "fb_datetime"]))
    else none
  | none => none

/-- Python str() of the limit variable, which may still be None. -/
def limit_str : Option Int → String
  | none => "None"
  | some l => toString l

/-- DataStream.py lines 925-935: the unique name from which a partition's
cache file name is derived.  It interpolates the base uri, the dataset key,
the overall requested limit, the partition's skip value twice (the
partition's own limit is never used), the dash-join of the field list when a
projection is present, and the serialized query when present.  The actual
file name is the first 12 hex characters of the sha3-256 digest of this
string plus a .json suffix; the digest is modelled by this preimage. -/
def tmp_name (base_uri key : String) (limit : Option Int) (skip0 : Nat)
    (fields : Option (List String)) (query : Option String) : String :=
  let base :=
    match fields with
    | none =>
      "fb_stream__" ++ base_uri ++ "__" ++ key ++ "__" ++ limit_str limit ++
        "___" ++ toString skip0 ++ "__" ++ toString skip0
    | some fs =>
      "fb_stream__" ++ base_uri ++ "__" ++ key ++ "__" ++ limit_str limit ++
        "___" ++ toString skip0 ++ "__" ++ toString skip0 ++ "___" ++
        String.intercalate "-" fs
  match query with
  | none => base
  | some q => base ++ "__" ++ q

/-- The on-disk cache file of a partition: DataStream.py appends .gz to the
tmp file path when writing, probing and reading the cache. -/
def partition_cache_path (base_uri key : String) (limit : Option Int)
    (fields : Option (List String)) (query : Option String)
    (sl : Nat × Nat) : String :=
  tmp_name base_uri key limit sl.1 fields query ++ ".gz"

/-- The local cache directory, as an association list from paths to file
contents. -/
def FileSystem : Type := List (String × FileContent)

/-- Content stored at a path, if any. -/
def fsGet (fs : FileSystem) (p : String) : Option FileContent :=
  (List.find? (fun e => e.1 == p) fs).map (fun e => e.2)

/-- Write (create or overwrite) the file at a path. -/
def fsSet (fs : FileSystem) (p : String) (c : FileContent) : FileSystem :=
  (p, c) :: List.filter (fun e => e.1 != p) fs

/-- Delete the file at a path (Path.unlink). -/
def fsDel (fs : FileSystem) (p : String) : FileSystem :=
  List.filter (fun e => e.1 != p) fs

/-- Result of one call of the inner coroutine: the updated cache directory,
the returned tmp path (None when the download failed and the exception
handler of lines 983-985 swallowed the error), and the HTTP requests made. -/
structure FetchRes where
  fs : FileSystem
  path : Option String
  evs : List Ev

/-- DataStream.py lines 922-985, the inner coroutine of get_data.  The
server function maps a (skip, limit) request to the downloaded rows, or to
none for a transport error.  A cache file that merely exists is a hit when
live is false, regardless of its content; otherwise the partition is
downloaded and written, and on a transport error the coroutine logs and
returns None. -/
def get_data_from_fusionbase (base_uri key : String) (limit : Option Int)
    (fields : Option (List String)) (query : Option String) (live : Bool)
    (server : Nat → Nat → Option (List Nat)) (fs : FileSystem)
    (sl : Nat × Nat) : FetchRes :=
  let fpath := tmp_name base_uri key limit sl.1 fields query
  if (fsGet fs (fpath ++ ".gz")).isSome ∧ live = false then
    ⟨fs, some fpath, []⟩
  else
    match server sl.1 sl.2 with
    | some rows => ⟨fsSet fs (fpath ++ ".gz") (.gzipJson rows), some fpath,
        [.httpGet sl.1 sl.2]⟩
    | none => ⟨fs, none, [.httpGet sl.1 sl.2]⟩

/-- Outcome of the access probe of DataStream.py lines 990-1012. -/
structure ProbeOut where
  fs : FileSystem
  adjust : Bool
  abort : Bool
  evs : List Ev

/-- DataStream.py lines 990-1012: the access probe fetches (0, 12) through
the same coroutine (its path is not added to the tmp path set), reads the
resulting file back, records whether exactly 10 rows came back, and always
unlinks the file.  If the probe download failed, opening and unlinking
None.gz raises FileNotFoundError, which the enclosing try swallows after the
probe, so the main partition tasks are never created (abort). -/
def probe_phase (base_uri key : String) (limit : Option Int)
    (fields : Option (List String)) (query : Option String) (live : Bool)
    (server : Nat → Nat → Option (List Nat)) (fs0 : FileSystem) : ProbeOut :=
  let pr := get_data_from_fusionbase base_uri key limit fields query live server fs0 (0, 12)
  match pr.path with
  | none => ⟨pr.fs, false, true, pr.evs⟩
  | some p =>
    let nrows : Option Nat :=
      match fsGet pr.fs (p ++ ".gz") with
      | some (.gzipJson rows) => some rows.length
      | _ => none
    ⟨fsDel pr.fs (p ++ ".gz"), nrows = some 10, false, pr.evs⟩

/-- Result of the download section of get_data. -/
structure RunFetch where
  fs : FileSystem
  paths : List (Option String)
  evs : List Ev
  batches : List (Nat × Nat)

/-- DataStream.py lines 990-1049: the probe runs first; if it saw exactly 10
rows the batch list is replaced by [(0, 10)]; then every planned partition is
fetched through the coroutine and its returned path (possibly None) is added
to the tmp path set, modelled as a list in completion order. -/
def fetch_phase (base_uri key : String) (limit : Option Int)
    (fields : Option (List String)) (query : Option String) (live : Bool)
    (server : Nat → Nat → Option (List Nat)) (fs0 : FileSystem)
    (batches : List (Nat × Nat)) : RunFetch :=
  let po := probe_phase base_uri key limit fields query live server fs0
  if po.abort then ⟨po.fs, [], po.evs, batches⟩
  else
    let batches1 := if po.adjust then [(0, 10)] else batches
    let step := fun (acc : FileSystem × List (Option String) × List Ev) sl =>
      let r := get_data_from_fusionbase base_uri key limit fields query live server acc.1 sl
      (r.fs, acc.2.1 ++ [r.path], acc.2.2 ++ r.evs)
    let out := batches1.foldl step (po.fs, [], po.evs)
    ⟨out.1, out.2.1, out.2.2, batches1⟩

/-- DataStream.py lines 1053-1062: the generator over the tmp path set.  For
a None entry (a failed partition), gzip.open of the literal path None.gz
raises FileNotFoundError, which is not caught (only BadGzipFile is); a
corrupt file raises BadGzipFile and is silently skipped; a valid file yields
its rows, extended into the result list. -/
def load_tmp_files (fs : FileSystem) : List (Option String) → Except PyErr (List Nat)
  | [] => .ok []
  | none :: _ => .error .fileNotFoundError
  | some p :: rest =>
    match fsGet fs (p ++ ".gz") with
    | none => .error .fileNotFoundError
    | some .corrupt => load_tmp_files fs rest
    | some (.gzipJson rows) => (load_tmp_files fs rest).map (fun t => rows ++ t)

/-- DataStream.py lines 826-832: the concurrency budget derived from the cpu
count, at least 1 and at most 10. -/
def max_batches_of (cpu_count : Nat) : Nat :=
  let mb := if cpu_count - 1 > 1 then cpu_count - 1 else 1
  if mb > 10 then 10 else mb

/-- Outcome of the planning part of get_data: planned partitions, the munged
field projection, the possibly clamped limit. -/
structure PlanOut where
  batches : List (Nat × Nat)
  fields : Option (List String)
  limit : Option Int

/-- DataStream.py lines 728-912, the part of get_data before the downloads,
for the in-memory result type.  avg is the value returned by the row-size
estimator (0 on any estimator failure); entry_count is the row count in the
metadata; the returned event list records the estimator and metadata HTTP
requests in order.  The ceiling max_allowed_limit =
ceil(1610612736 / (avg * 1.2)) is computed exactly as
ceil(16106127360 / (12 * avg)) and raises ZeroDivisionError when avg = 0. -/
def plan_phase (fields0 : Option (List String)) (skip limit0 : Option Int)
    (query : Option String) (avg : Nat) (entry_count cpu_count : Nat) :
    List Ev × Except PyErr PlanOut :=
  if limit0.any (fun l => decide (l < -1) || decide (l = 0)) then
    ([], .error (.valueError "limit parameter must be > 0 or -1"))
  else if skip.any (fun s => decide (s < 0)) then
    ([], .error (.valueError "skip parameter must be >= 0"))
  else
    let fields := prepare_fields fields0
    if avg = 0 then ([.estimateReq], .error .zeroDivisionError)
    else
      let mal : Nat := (16106127360 + 12 * avg - 1) / (12 * avg)
      let limit1 := match limit0 with
        | some l => if l > (mal : Int) then some (mal : Int) else some l
        | none => none
      let limit2 := if query.isSome then some (mal : Int) else limit1
      let mb := max_batches_of cpu_count
      let planned : Except PyErr (List (Nat × Nat)) :=
        match skip, limit2 with
        | some s, some l =>
          if l > -1 then
            calc_skip_limit_tuples l.toNat mb s.toNat (avg : Int) entry_count
          else if (entry_count : Int) - s < 1 then .error .skipBeyondRows
          else calc_skip_limit_tuples entry_count mb s.toNat (avg : Int) entry_count
        | none, some l =>
          if l > -1 then
            calc_skip_limit_tuples l.toNat mb 0 (avg : Int) entry_count
          else calc_skip_limit_tuples entry_count mb 0 (avg : Int) entry_count
        | some s, none =>
          if (entry_count : Int) - s < 1 then .error .skipBeyondRows
          else calc_skip_limit_tuples entry_count mb s.toNat (avg : Int) entry_count
        | none, none =>
          calc_skip_limit_tuples entry_count mb 0 (avg : Int) entry_count
      ([.estimateReq, .metaReq],
        planned.map (fun b => ⟨b, fields, limit2⟩))

/-- The whole get_data call for the in-memory PYTHON_LIST result type:
planning, probe, partition downloads, and reassembly.  Returns the event
trace, the final cache directory and the result or raised exception. -/
def get_data_run (base_uri key : String) (fields0 : Option (List String))
    (skip limit0 : Option Int) (query : Option String) (live : Bool)
    (avg : Nat) (entry_count cpu_count : Nat)
    (server : Nat → Nat → Option (List Nat)) (fs0 : FileSystem) :
    List Ev × FileSystem × Except PyErr (List Nat) :=
  let (evs, pl) := plan_phase fields0 skip limit0 query avg entry_count cpu_count
  match pl with
  | .error e => (evs, fs0, .error e)
  | .ok po =>
    let rf := fetch_phase base_uri key po.limit po.fields query live server fs0 po.batches
    (evs ++ rf.evs, rf.fs, load_tmp_files rf.fs rf.paths)

/-! Concrete scenarios used by individual claims. -/

/-- The 12-partition plan of the C5 scenario. -/
def c5_list : List (Nat × Nat) :=
  [(0, 2), (2, 2), (4, 2), (6, 2), (8, 2), (10, 2),
   (12, 2), (14, 2), (16, 2), (18, 2), (20, 2), (22, 1)]

/-- Server for the C2 scenario: the probe and the four per-row partitions of
a limit-4 fetch all succeed; partition (2, 1) would deliver row 102. -/
def c2_server : Nat → Nat → Option (List Nat) := fun s l =>
  if s = 0 ∧ l = 12 then some (List.range 12)
  else if s = 0 ∧ l = 1 then some [100]
  else if s = 1 ∧ l = 1 then some [101]
  else if s = 2 ∧ l = 1 then some [102]
  else if s = 3 ∧ l = 1 then some [103]
  else none

/-- Cache directory for the C2 scenario: the file cached for partition
(2, 1) of a limit-4 fetch exists but holds invalid (non-gzip) content. -/
def c2_fs : FileSystem :=
  [(partition_cache_path "B" "k" (some 4) none none (2, 1), .corrupt)]

/-- Server for the C3 scenario: the probe and partition (0, 1) succeed;
partition (1, 1) fails with a transport error (timeout). -/
def c3_server : Nat → Nat → Option (List Nat) := fun s l =>
  if s = 0 ∧ l = 12 then some (List.range 12)
  else if s = 0 ∧ l = 1 then some [100]
  else none

/-- Server for the C7 counterexample: the access probe receives only 11 of
the 12 requested rows; every other partition request is served in full. -/
def c7_short_server : Nat → Nat → Option (List Nat) := fun s l =>
  if s = 0 ∧ l = 12 then some (List.range 11) else some (List.range' s l)

/-- Server for the C7 witness: the access probe receives exactly 10 rows;
every other partition request is served in full. -/
def c7_ten_server : Nat → Nat → Option (List Nat) := fun s l =>
  if s = 0 ∧ l = 12 then some (List.range 10) else some (List.range' s l)

/-- Cache directory for the C9 counterexample: a valid cached file for the
main-fetch partition (0, 19) of a limit-40 fetch. -/
def c9_fs : FileSystem :=
  [(partition_cache_path "B" "k" (some 40) none none (0, 19), .gzipJson [1, 2])]

/-- Cache directory for the C9 witness: a corrupt cached file for the
main-fetch partition (0, 7) of an unlimited fetch. -/
def c9_fs2 : FileSystem :=
  [(partition_cache_path "B" "k2" none none none (0, 7), .corrupt)]

/-! Helper lemmas about chunking ranges of row indices. -/

theorem range'_take : ∀ (k a n : Nat), (List.range' a n).take k = List.range' a (min k n) := by
  intro k a n
  induction n generalizing k a with
  | zero => simp
  | succ m ih =>
    cases k with
    | zero => simp
    | succ k' =>
      rw [List.range'_succ, List.take_succ_cons, ih, Nat.succ_min_succ, List.range'_succ]

theorem range'_drop : ∀ (k a n : Nat), (List.range' a n).drop k = List.range' (a + k) (n - k) := by
  intro k a n
  induction n generalizing k a with
  | zero => simp
  | succ m ih =>
    cases k with
    | zero => simp
    | succ k' =>
      rw [List.range'_succ, List.drop_succ_cons, ih]
      have h1 : a + 1 + k' = a + (k' + 1) := by omega
      have h2 : m - k' = m + 1 - (k' + 1) := by omega
      rw [h1, h2]

theorem range'_headD (a n : Nat) (h : 1 ≤ n) : (List.range' a n).headD 0 = a := by
  cases n with
  | zero => omega
  | succ m => rw [List.range'_succ, List.headD_cons]

theorem range'_getLastD (a n : Nat) (h : 1 ≤ n) : (List.range' a n).getLastD 0 = a + n - 1 := by
  rw [List.getLastD_eq_getLast?, List.getLast?_range', if_neg (by omega)]
  rfl

theorem range'_isEmpty_succ (a m : Nat) : (List.range' a (m + 1)).isEmpty = false := by
  rw [List.range'_succ]
  rfl

theorem chunk_tuple_range' (skip a n : Nat) (h : 1 ≤ n) :
    chunk_tuple skip (List.range' a n) = (a + skip, n) := by
  unfold chunk_tuple
  rw [range'_headD a n h, range'_getLastD a n h]
  have : a + n - 1 + 1 - a = n := by omega
  rw [this]

/-- Each row index is covered by exactly one of the tuples obtained by
chunking a contiguous index range, as long as it lies in the planned range,
and by none of them otherwise. -/
theorem countP_chunks_range' (s skip r : Nat) (hs : 1 ≤ s) :
    ∀ (fuel n a : Nat), n ≤ fuel →
      ((chunksOfF s fuel (List.range' a n)).map (chunk_tuple skip)).countP
          (fun p => containsRow p r) =
        if a + skip ≤ r ∧ r < a + skip + n then 1 else 0 := by
  intro fuel
  induction fuel with
  | zero =>
    intro n a hn
    have hn0 : n = 0 := by omega
    subst hn0
    rw [if_neg (by omega)]
    simp [chunksOfF]
  | succ f ih =>
    intro n a hn
    cases n with
    | zero =>
      rw [if_neg (by omega)]
      simp [chunksOfF]
    | succ m =>
      simp only [chunksOfF, if_neg (by omega : ¬ s = 0), range'_isEmpty_succ,
        Bool.false_eq_true, if_false]
      rw [range'_take, range'_drop, List.map_cons, List.countP_cons,
        chunk_tuple_range' skip a (min s (m + 1)) (by omega),
        ih (m + 1 - s) (a + s) (by omega)]
      have hcr : (containsRow (a + skip, min s (m + 1)) r = true) ↔
          (a + skip ≤ r ∧ r < a + skip + min s (m + 1)) := by
        simp [containsRow]
      simp only [hcr]
      split_ifs <;> omega

/-- The number of chunks of a range of given length is the ceiling of the
length divided by the chunk size. -/
theorem length_chunks_range' (s : Nat) (hs : 1 ≤ s) :
    ∀ (fuel n a : Nat), n ≤ fuel →
      (chunksOfF s fuel (List.range' a n)).length = (n + s - 1) / s := by
  intro fuel
  have hdiv0 : (s - 1) / s = 0 := Nat.div_eq_of_lt (by omega)
  induction fuel with
  | zero =>
    intro n a hn
    have hn0 : n = 0 := by omega
    subst hn0
    simp [chunksOfF, hdiv0]
  | succ f ih =>
    intro n a hn
    cases n with
    | zero =>
      simp [chunksOfF, hdiv0]
    | succ m =>
      simp only [chunksOfF, if_neg (by omega : ¬ s = 0), range'_isEmpty_succ,
        Bool.false_eq_true, if_false]
      rw [List.length_cons, range'_drop, ih (m + 1 - s) (a + s) (by omega)]
      by_cases hms : m + 1 ≤ s
      · have h1 : m + 1 - s = 0 := by omega
        have hone : (m + 1 + s - 1) / s = 1 := Nat.div_eq_of_lt_le (by omega) (by omega)
        rw [h1]
        simp only [Nat.zero_add]
        rw [hdiv0, hone]
      · have h1 : m + 1 - s + s - 1 = m := by omega
        have h2 : m + 1 + s - 1 = m + s := by omega
        rw [h1, h2, Nat.add_div_right _ (by omega)]

/-- Every tuple obtained by chunking a contiguous index range starts at or
after the start of the range, ends at or before its end, and has a positive
row count. -/
theorem chunks_range'_bounds (s skip : Nat) (hs : 1 ≤ s) :
    ∀ (fuel n a : Nat), n ≤ fuel →
      ∀ p ∈ (chunksOfF s fuel (List.range' a n)).map (chunk_tuple skip),
        a + skip ≤ p.1 ∧ p.1 + p.2 ≤ a + skip + n ∧ 1 ≤ p.2 := by
  intro fuel
  induction fuel with
  | zero =>
    intro n a hn
    have hn0 : n = 0 := by omega
    subst hn0
    simp [chunksOfF]
  | succ f ih =>
    intro n a hn
    cases n with
    | zero => simp [chunksOfF]
    | succ m =>
      simp only [chunksOfF, if_neg (by omega : ¬ s = 0), range'_isEmpty_succ,
        Bool.false_eq_true, if_false]
      rw [range'_take, range'_drop, List.map_cons]
      intro p hp
      rcases List.mem_cons.mp hp with h | h
      · rw [chunk_tuple_range' skip a (min s (m + 1)) (by omega)] at h
        subst h
        simp only
        omega
      · have hb := ih (m + 1 - s) (a + s) (by omega) p h
        omega

/-- When the initial hard limit is at least 2 and at least one row is
requested, the effective hard limit is at least 2 as well. -/
theorem effective_hard_limit_ge_two (limit max_batches h0 : Nat)
    (h2 : 2 ≤ h0) (hl : 1 ≤ limit) :
    2 ≤ effective_hard_limit limit max_batches h0 := by
  unfold effective_hard_limit
  split_ifs with hc hc1
  · omega
  · have hmb : 1 ≤ max_batches := by
      by_contra hmb0
      have hz : max_batches = 0 := by omega
      rw [hz, Nat.zero_mul] at hc
      omega
    have hge : 1 * max_batches ≤ limit + max_batches - 1 := by omega
    have := (Nat.le_div_iff_mul_le hmb).mpr hge
    omega
  · omega

/-- Shape of a successful run of the planner: the chunked range, mapped to
tuples, with the stream-rows filter applied. -/
theorem calc_skip_limit_tuples_ok (limit max_batches initial_skip stream_rows : Nat)
    (avg : Int) (h0 : Nat) (hh : hard_limit_0 avg = .ok h0) (hne : h0 ≠ 0)
    (hne2 : effective_hard_limit limit max_batches h0 ≠ 0) :
    calc_skip_limit_tuples limit max_batches initial_skip avg stream_rows =
      .ok (((chunksOfF (effective_hard_limit limit max_batches h0 - 1) limit
            (List.range' 0 limit)).map (chunk_tuple initial_skip)).filter
          (fun x => decide (x.1 ≤ stream_rows))) := by
  simp only [calc_skip_limit_tuples, hh, if_neg hne, if_neg hne2, chunksOf,
    List.length_range, List.range_eq_range', List.length_range']

/-! Helper lemmas about the filesystem model and duplicate removal. -/

theorem fsGet_fsSet (fs : FileSystem) (p : String) (c : FileContent) :
    fsGet (fsSet fs p c) p = some c := by
  simp [fsGet, fsSet, List.find?_cons_of_pos]

theorem fsGet_fsDel (fs : FileSystem) (p : String) :
    fsGet (fsDel fs p) p = none := by
  have : List.find? (fun e => e.1 == p) (fsDel fs p) = none := by
    rw [List.find?_eq_none]
    intro x hx
    have hmem := List.mem_filter.mp hx
    simpa using hmem.2
  simp [fsGet, this]

/-- Membership in the keep-first duplicate removal: an element is kept iff it
occurs in the input and was not already seen. -/
theorem mem_dedup_go :
    ∀ (xs seen : List String) (y : String),
      y ∈ dedup_go seen xs ↔ (y ∈ xs ∧ y ∉ seen) := by
  intro xs
  induction xs with
  | nil => intro seen y; simp [dedup_go]
  | cons x xs ih =>
    intro seen y
    simp only [dedup_go]
    by_cases hx : x ∈ seen
    · rw [if_pos hx, ih]
      simp only [List.mem_cons]
      constructor
      · rintro ⟨h1, h2⟩
        exact ⟨Or.inr h1, h2⟩
      · rintro ⟨h1 | h1, h2⟩
        · exact absurd (h1 ▸ hx) h2
        · exact ⟨h1, h2⟩
    · rw [if_neg hx]
      simp only [List.mem_cons, ih (x :: seen)]
      constructor
      · rintro (h | ⟨h1, h2⟩)
        · exact ⟨Or.inl h, h ▸ hx⟩
        · exact ⟨Or.inr h1, fun hc => h2 (Or.inr hc)⟩
      · rintro ⟨h1 | h1, h2⟩
        · exact Or.inl h1
        · by_cases hyx : y = x
          · exact Or.inl hyx
          · exact Or.inr ⟨h1, fun hc => hc.elim hyx h2⟩

/-- The keep-first duplicate removal emits no duplicates. -/
theorem nodup_dedup_go :
    ∀ (xs seen : List String), (dedup_go seen xs).Nodup := by
  intro xs
  induction xs with
  | nil => intro seen; simp [dedup_go]
  | cons x xs ih =>
    intro seen
    simp only [dedup_go]
    by_cases hx : x ∈ seen
    · rw [if_pos hx]
      exact ih seen
    · rw [if_neg hx]
      refine List.nodup_cons.mpr ⟨?_, ih (x :: seen)⟩
      intro hc
      exact ((mem_dedup_go xs (x :: seen) x).mp hc).2 (List.mem_cons_self x seen)

/-- The keep-first duplicate removal agrees with a left fold that appends
each element the first time it is encountered — the dict.fromkeys
semantics. -/
theorem dedup_go_foldl :
    ∀ (xs seen acc : List String), (∀ x, x ∈ seen ↔ x ∈ acc) →
      xs.foldl (fun a x => if x ∈ a then a else a ++ [x]) acc =
        acc ++ dedup_go seen xs := by
  intro xs
  induction xs with
  | nil => intro seen acc h; simp [dedup_go]
  | cons x xs ih =>
    intro seen acc h
    simp only [List.foldl_cons, dedup_go]
    by_cases hx : x ∈ seen
    · rw [if_pos ((h x).mp hx), if_pos hx]
      exact ih seen acc h
    · rw [if_neg (fun hc => hx ((h x).mpr hc)), if_neg hx]
      rw [ih (x :: seen) (acc ++ [x]) ?_]
      · simp
      · intro y
        simp only [List.mem_cons, List.mem_append, List.mem_singleton, h y]
        tauto

/-- C1 (amended): for every limit ≥ 1, max_batches ≥ 1, any initial_skip,
stream_rows ≥ initial_skip + limit, and any average row-size estimate whose
initial hard limit is at least 2 (this covers every negative estimate via the
5000 fallback and every positive estimate of at most 671088640 bytes), the
planner succeeds, its partition descriptors are pairwise non-overlapping and
together cover the row range [initial_skip, initial_skip + limit) exactly
once — every row in the range lies in exactly one descriptor and rows outside
it in none — and when limit is at least max_batches times the hard limit the
plan has at least max_batches partitions.  The restriction on the estimate is
forced by the code: estimates in (671088640, 1342177280] give hard limit 1
and an empty plan, larger ones and the estimate 0 raise exceptions. -/
theorem c1_planner_covers (limit max_batches initial_skip stream_rows : Nat)
    (avg : Int) (h0 : Nat)
    (hh : hard_limit_0 avg = .ok h0) (hh2 : 2 ≤ h0)
    (hmb : 1 ≤ max_batches) (hlim : 1 ≤ limit)
    (hsr : initial_skip + limit ≤ stream_rows) :
    ∃ l, calc_skip_limit_tuples limit max_batches initial_skip avg stream_rows = .ok l ∧
      (∀ r : Nat, l.countP (fun p => containsRow p r) =
        if initial_skip ≤ r ∧ r < initial_skip + limit then 1 else 0) ∧
      (max_batches * h0 ≤ limit → max_batches ≤ l.length) := by
  have h2 := effective_hard_limit_ge_two limit max_batches h0 hh2 hlim
  have hs : 1 ≤ effective_hard_limit limit max_batches h0 - 1 := by omega
  have hcalc := calc_skip_limit_tuples_ok limit max_batches initial_skip stream_rows
    avg h0 hh (by omega) (by omega)
  set L := (chunksOfF (effective_hard_limit limit max_batches h0 - 1) limit
    (List.range' 0 limit)).map (chunk_tuple initial_skip) with hL
  have hfil : L.filter (fun x => decide (x.1 ≤ stream_rows)) = L := by
    apply List.filter_eq_self.mpr
    intro p hp
    rw [hL] at hp
    have hb := chunks_range'_bounds _ initial_skip hs limit limit 0 (Nat.le_refl _) p hp
    simp only [decide_eq_true_eq]
    omega
  refine ⟨L, ?_, ?_, ?_⟩
  · rw [hcalc, hfil]
  · intro r
    rw [hL, countP_chunks_range' _ initial_skip r hs limit limit 0 (Nat.le_refl _)]
    simp only [Nat.zero_add]
  · intro hbig
    have hnl : ¬ (limit < max_batches * h0) := by omega
    have heq : effective_hard_limit limit max_batches h0 = h0 := by
      unfold effective_hard_limit
      rw [if_neg hnl]
    rw [hL, List.length_map, length_chunks_range' _ hs limit limit 0 (Nat.le_refl _),
      Nat.le_div_iff_mul_le (by omega), heq]
    have hmul : max_batches * (h0 - 1) ≤ max_batches * h0 :=
      Nat.mul_le_mul_left _ (by omega)
    omega

/-- C1 witness: a concrete instance of the amended planner theorem with the
default -1 estimate (fallback hard limit 5000), limit 10, 2 batches, skip 1
and 11 stream rows. -/
theorem c1_planner_covers_witness :
    hard_limit_0 (-1) = .ok 5000 ∧ 2 ≤ 5000 ∧ 1 ≤ 2 ∧ 1 ≤ 10 ∧ 1 + 10 ≤ 11 ∧
    (∃ l, calc_skip_limit_tuples 10 2 1 (-1) 11 = .ok l ∧
      (∀ r : Nat, l.countP (fun p => containsRow p r) =
        if 1 ≤ r ∧ r < 1 + 10 then 1 else 0) ∧
      (2 * 5000 ≤ 10 → 2 ≤ l.length)) :=
  ⟨rfl, by omega, by omega, by omega, by omega,
    c1_planner_covers 10 2 1 11 (-1) 5000 rfl (by omega) (by omega) (by omega) (by omega)⟩

/-- C1 counterexample: the claim quantifies over any average row-size
estimate, but the estimate 1000000000 gives an initial hard limit of 1, and
since 20 / 1 is not below max_batches = 4 the hard limit stays 1, so the
chunk size is 0 and the planner returns an empty plan: no descriptor covers
row 0 of the requested range [0, 20), although stream_rows = 100 is ample. -/
theorem c1_counterexample :
    calc_skip_limit_tuples 20 4 0 1000000000 100 = .ok [] ∧
    ¬ (∀ r : Nat, r < 20 →
        (([] : List (Nat × Nat)).countP (fun p => containsRow p r) = 1)) := by
  constructor
  · rfl
  · intro h
    simpa using h 0 (by omega)

/-- C5 (amended): the scenario of the claim holds when the computed hard
limit equals 3, so that each chunk holds at most hard limit - 1 = 2 rows
(the code chunks into pieces of hard limit - 1 rows, not hard limit rows):
for limit 23, max_batches 4, initial_skip 0, stream_rows 23 and any estimate
whose hard limit is 3, the planner returns exactly 12 partitions, each of at
most 2 rows, covering rows 0 through 22 with no gaps and no overlaps. -/
theorem c5_twelve_partitions (avg : Int) (hh : hard_limit_0 avg = .ok 3) :
    calc_skip_limit_tuples 23 4 0 avg 23 = .ok c5_list ∧
    c5_list.length = 12 ∧
    (∀ p ∈ c5_list, p.2 ≤ 2) ∧
    (∀ r : Nat, c5_list.countP (fun p => containsRow p r) =
      if r < 23 then 1 else 0) := by
  refine ⟨?_, by decide, by decide, ?_⟩
  · simp only [calc_skip_limit_tuples, hh]
    rfl
  · intro r
    by_cases hr : r < 23
    · rw [if_pos hr]
      interval_cases r <;> decide
    · rw [if_neg hr]
      apply List.countP_eq_zero.mpr
      intro p hp
      fin_cases hp <;> simp [containsRow] <;> omega

/-- C5 witness: the estimate 402653184 (384 MiB per row) produces exactly
the hard limit 3 required by the amended scenario theorem. -/
theorem c5_twelve_partitions_witness :
    hard_limit_0 402653184 = .ok 3 ∧
    (calc_skip_limit_tuples 23 4 0 402653184 23 = .ok c5_list ∧
      c5_list.length = 12 ∧
      (∀ p ∈ c5_list, p.2 ≤ 2) ∧
      (∀ r : Nat, c5_list.countP (fun p => containsRow p r) =
        if r < 23 then 1 else 0)) :=
  ⟨rfl, c5_twelve_partitions 402653184 rfl⟩

/-- C5 counterexample: an estimate for which the computed hard per-partition
cap (the hard limit of lines 200-213) equals exactly 2, as the claim
demands: 536870912 bytes per row.  Because the chunk size is hard limit - 1
= 1, the planner returns 23 singleton partitions, not 12 partitions of at
most 2 rows. -/
theorem c5_counterexample :
    hard_limit_0 536870912 = .ok 2 ∧
    (calc_skip_limit_tuples 23 4 0 536870912 23).map List.length = .ok 23 := by
  exact ⟨rfl, rfl⟩

/-- C6: a zero row-size estimate is not mapped to the fixed fallback cap but
crashes.  The planner raises ZeroDivisionError computing
1610612736 / (0 * 1.2) because its fallback guard tests estimate >= 0, not
estimate > 0; and get_data itself, called with limit 50 on a 1000-row stream
whose estimator failed (returned 0), raises ZeroDivisionError computing the
max allowed limit right after the estimator request, before the metadata
request and before any partition request. -/
theorem c6_zero_estimate_raises :
    calc_skip_limit_tuples 100 20 0 0 1000 = .error .zeroDivisionError ∧
    get_data_run "B" "k" none none (some 50) none false 0 1000 4
        (fun _ _ => none) [] =
      ([.estimateReq], [], .error .zeroDivisionError) := by
  exact ⟨rfl, rfl⟩

/-- C10 (confirmed): a projection supplied as None or as an empty list is
treated as no projection at all; a non-empty projection gets the three
Fusionbase columns appended and duplicates removed keeping first occurrences
(the dict.fromkeys left-fold semantics), so the prepared field list — the
one from which every request URL and cache name is subsequently built —
always contains fb_id, fb_data_version and fb_datetime, has no duplicates,
and holds exactly the elements of the extended list. -/
theorem c10_fields_munging (fs : List String) :
    prepare_fields none = none ∧
    prepare_fields (some []) = none ∧
    (fs ≠ [] →
      ∃ r, prepare_fields (some fs) = some r ∧
        "fb_id" ∈ r ∧ "fb_data_version" ∈ r ∧ "fb_datetime" ∈ r ∧
        r.Nodup ∧
        (∀ x, x ∈ r ↔ x ∈ fs ++ ["fb_id", "fb_data_version", "fb_datetime"]) ∧
        r = (fs ++ ["fb_id", "fb_data_version", "fb_datetime"]).foldl
          (fun a x => if x ∈ a then a else a ++ [x]) []) := by
  refine ⟨rfl, rfl, fun hne => ?_⟩
  have hlen : fs.length > 0 := List.length_pos.mpr hne
  have hmem : ∀ y, y ∈ dedupKeepFirst (fs ++ ["fb_id", "fb_data_version", "fb_datetime"]) ↔
      y ∈ fs ++ ["fb_id", "fb_data_version", "fb_datetime"] := by
    intro y
    rw [dedupKeepFirst, mem_dedup_go]
    simp
  refine ⟨dedupKeepFirst (fs ++ ["fb_id", "fb_data_version", "fb_datetime"]),
    by simp [prepare_fields, hlen], ?_, ?_, ?_, ?_, hmem, ?_⟩
  · rw [hmem]
    simp
  · rw [hmem]
    simp
  · rw [hmem]
    simp
  · exact nodup_dedup_go _ []
  · have := dedup_go_foldl (fs ++ ["fb_id", "fb_data_version", "fb_datetime"])
      [] [] (by simp)
    rw [this]
    simp [dedupKeepFirst]

/-- C10 witness: the projection ["name", "fb_id"] is non-empty; its prepared
field list is exactly ["name", "fb_id", "fb_data_version", "fb_datetime"],
with the duplicate fb_id removed keeping the first occurrence. -/
theorem c10_fields_munging_witness :
    (["name", "fb_id"] : List String) ≠ [] ∧
    (∃ r, prepare_fields (some ["name", "fb_id"]) = some r ∧
      "fb_id" ∈ r ∧ "fb_data_version" ∈ r ∧ "fb_datetime" ∈ r ∧
      r.Nodup ∧
      (∀ x, x ∈ r ↔ x ∈ ["name", "fb_id"] ++ ["fb_id", "fb_data_version", "fb_datetime"]) ∧
      r = (["name", "fb_id"] ++ ["fb_id", "fb_data_version", "fb_datetime"]).foldl
        (fun a x => if x ∈ a then a else a ++ [x]) []) :=
  ⟨by decide, (c10_fields_munging ["name", "fb_id"]).2.2 (by decide)⟩

/-- C4 (amended): the cache name — and hence the 12-hex cache key obtained
by hashing it — is a deterministic function of the base uri, dataset key,
overall limit, partition offset, query, and the dash-join of the field list:
whenever the dash-joins agree (in particular whenever the field lists are
equal), the names and keys agree.  The converse direction of the claim
fails: distinct field lists with equal dash-joins collide, so changing the
field list alone does not guarantee a different cache key. -/
theorem c4_cache_name_from_join (base_uri key : String) (limit : Option Int)
    (skip0 : Nat) (f1 f2 : List String) (query : Option String)
    (hj : String.intercalate "-" f1 = String.intercalate "-" f2) :
    tmp_name base_uri key limit skip0 (some f1) query =
      tmp_name base_uri key limit skip0 (some f2) query := by
  simp only [tmp_name, hj]

/-- C4 witness: with all other parameters equal, the field lists
["a-b", fb columns] and ["a", "b", fb columns] have the same dash-join, so
the theorem applies and the two cache names coincide. -/
theorem c4_cache_name_from_join_witness :
    String.intercalate "-" ["a-b", "fb_id", "fb_data_version", "fb_datetime"] =
      String.intercalate "-" ["a", "b", "fb_id", "fb_data_version", "fb_datetime"] ∧
    tmp_name "https://api.fusionbase.com/api/v1" "k" (some 100) 0
        (some ["a-b", "fb_id", "fb_data_version", "fb_datetime"]) none =
      tmp_name "https://api.fusionbase.com/api/v1" "k" (some 100) 0
        (some ["a", "b", "fb_id", "fb_data_version", "fb_datetime"]) none :=
  ⟨rfl, c4_cache_name_from_join "https://api.fusionbase.com/api/v1" "k" (some 100) 0
    ["a-b", "fb_id", "fb_data_version", "fb_datetime"]
    ["a", "b", "fb_id", "fb_data_version", "fb_datetime"] none rfl⟩

/-- C4 counterexample: two fetches that differ in exactly one of the claimed
key parameters — the field list, ["a-b", fb columns] versus
["a", "b", fb columns] — produce identical cache name strings; the 12-hex
cache key is the truncated digest of that string, so the keys and the cache
file paths coincide as well, refuting that changing any single parameter
yields a different key. -/
theorem c4_counterexample :
    (["a-b", "fb_id", "fb_data_version", "fb_datetime"] : List String) ≠
      ["a", "b", "fb_id", "fb_data_version", "fb_datetime"] ∧
    tmp_name "https://api.fusionbase.com/api/v1" "k" (some 100) 0
        (some ["a-b", "fb_id", "fb_data_version", "fb_datetime"]) none =
      tmp_name "https://api.fusionbase.com/api/v1" "k" (some 100) 0
        (some ["a", "b", "fb_id", "fb_data_version", "fb_datetime"]) none := by
  exact ⟨by decide, rfl⟩

/-- C2 (amended): with live false, a cache file that merely exists at the
partition's derived path is treated as a hit whatever its content — the
coroutine returns the cached path immediately, makes no HTTP request and
leaves the cache directory unchanged; and when that content is invalid gzip
the loader silently skips the partition, so its rows are absent from the
final result; no re-fetch ever occurs. -/
theorem c2_corrupt_cache_is_hit (base_uri key : String) (limit : Option Int)
    (fields : Option (List String)) (query : Option String)
    (server : Nat → Nat → Option (List Nat)) (fs : FileSystem)
    (sl : Nat × Nat) (c : FileContent)
    (hc : fsGet fs (partition_cache_path base_uri key limit fields query sl) = some c) :
    get_data_from_fusionbase base_uri key limit fields query false server fs sl =
      ⟨fs, some (tmp_name base_uri key limit sl.1 fields query), []⟩ ∧
    (c = .corrupt →
      load_tmp_files fs [some (tmp_name base_uri key limit sl.1 fields query)] =
        .ok []) := by
  unfold partition_cache_path at hc
  constructor
  · simp [get_data_from_fusionbase, hc]
  · intro hcc
    subst hcc
    simp [load_tmp_files, hc]

/-- C2 witness: partition (5, 7) of an unlimited fetch, whose cache file
exists with corrupt content, is served from cache with no HTTP request, and
the loader yields no rows for it. -/
theorem c2_corrupt_cache_is_hit_witness :
    fsGet [(partition_cache_path "B" "k" none none none (5, 7), FileContent.corrupt)]
        (partition_cache_path "B" "k" none none none (5, 7)) = some .corrupt ∧
    (get_data_from_fusionbase "B" "k" none none none false (fun _ _ => none)
        [(partition_cache_path "B" "k" none none none (5, 7), FileContent.corrupt)]
        (5, 7) =
        ⟨[(partition_cache_path "B" "k" none none none (5, 7), FileContent.corrupt)],
          some (tmp_name "B" "k" none 5 none none), []⟩ ∧
      (FileContent.corrupt = .corrupt →
        load_tmp_files
          [(partition_cache_path "B" "k" none none none (5, 7), FileContent.corrupt)]
          [some (tmp_name "B" "k" none 5 none none)] = .ok [])) :=
  ⟨rfl, c2_corrupt_cache_is_hit "B" "k" none none none (fun _ _ => none) _ (5, 7)
    .corrupt rfl⟩

/-- C2 counterexample: full get_data run with limit 4 over four one-row
partitions, where the cache file of partition (2, 1) exists with invalid
gzip content and the server is fully reachable (it would deliver row 102 for
that partition).  The call does not treat the corrupt file as a miss: it
issues no request at all for partition (2, 1) and returns only rows 100, 101
and 103 — the corrupt partition's rows are missing instead of being
re-fetched once. -/
theorem c2_counterexample :
    fsGet c2_fs (partition_cache_path "B" "k" (some 4) none none (2, 1)) =
      some .corrupt ∧
    c2_server 2 1 = some [102] ∧
    (get_data_run "B" "k" none none (some 4) none false 1 100 3 c2_server c2_fs).2.2 =
      .ok [100, 101, 103] ∧
    (get_data_run "B" "k" none none (some 4) none false 1 100 3 c2_server c2_fs).1.count
      (.httpGet 2 1) = 0 := by
  exact ⟨rfl, rfl, rfl, rfl⟩

/-- C3: a transport failure of a single partition does not degrade to a
best-effort result: with the two-partition plan of a limit-2 fetch and the
server failing only partition (1, 1), the failed coroutine returns None,
None enters the tmp path set, and the loader's attempt to open the literal
path None.gz raises FileNotFoundError out of get_data — the surviving
partition's rows are lost and no result is returned.  The trace confirms
both partitions were attempted. -/
theorem c3_failed_partition_raises :
    c3_server 1 1 = none ∧
    (get_data_run "B" "k" none none (some 2) none false 1 100 3 c3_server []).1 =
      [.estimateReq, .metaReq, .httpGet 0 12, .httpGet 0 1, .httpGet 1 1] ∧
    (get_data_run "B" "k" none none (some 2) none false 1 100 3 c3_server []).2.2 =
      .error .fileNotFoundError := by
  exact ⟨rfl, rfl, rfl⟩

/-- C7 (amended): re-planning happens only when the probe reads exactly 10
rows, and then the plan is replaced by the single partition (0, 10), capping
the total planned rows at 10: with no cached file at the probe path and a
probe response of exactly 10 rows, the adjusted batch list is [(0, 10)]
whatever the original plan was.  Any other shortfall leaves the plan
unchanged (see the counterexample). -/
theorem c7_probe_ten_caps_plan (base_uri key : String) (limit : Option Int)
    (fields : Option (List String)) (query : Option String) (live : Bool)
    (server : Nat → Nat → Option (List Nat)) (fs0 : FileSystem)
    (batches : List (Nat × Nat)) (rows : List Nat)
    (hmiss : fsGet fs0 (partition_cache_path base_uri key limit fields query (0, 12)) =
      none)
    (hsrv : server 0 12 = some rows) (hlen : rows.length = 10) :
    (fetch_phase base_uri key limit fields query live server fs0 batches).batches =
      [(0, 10)] := by
  unfold partition_cache_path at hmiss
  simp [fetch_phase, probe_phase, get_data_from_fusionbase, hmiss, hsrv,
    fsGet_fsSet, hlen]

/-- C7 witness: with an empty cache, a probe served exactly 10 rows and an
original three-partition plan for 40 rows, the adjusted plan is the single
partition (0, 10). -/
theorem c7_probe_ten_caps_plan_witness :
    fsGet [] (partition_cache_path "B" "k" (some 40) none none (0, 12)) = none ∧
    c7_ten_server 0 12 = some (List.range 10) ∧ (List.range 10).length = 10 ∧
    (fetch_phase "B" "k" (some 40) none none false c7_ten_server []
      [(0, 19), (19, 19), (38, 2)]).batches = [(0, 10)] :=
  ⟨rfl, rfl, rfl, c7_probe_ten_caps_plan "B" "k" (some 40) none none false
    c7_ten_server [] [(0, 19), (19, 19), (38, 2)] (List.range 10) rfl rfl rfl⟩

/-- C7 counterexample: the access probe receives 11 of the 12 requested rows
— fewer than requested — on a limit-40 fetch of a 1000-row stream, yet no
re-planning happens: the three planned partitions are fetched in full and
the call returns 40 rows, far more than the 11 the probe received. -/
theorem c7_counterexample :
    c7_short_server 0 12 = some (List.range 11) ∧
    (List.range 11).length = 11 ∧
    ((get_data_run "B" "k" none none (some 40) none false 1 1000 3
        c7_short_server []).2.2).map List.length = .ok 40 ∧
    (get_data_run "B" "k" none none (some 40) none false 1 1000 3
        c7_short_server []).1 =
      [.estimateReq, .metaReq, .httpGet 0 12, .httpGet 0 19, .httpGet 19 19,
        .httpGet 38 2] := by
  exact ⟨rfl, rfl, rfl, rfl⟩

/-- C8 (amended): when skip is supplied without a limit, no query is given,
the estimator succeeded and entry_count - skip < 1, get_data raises the skip
configuration error before the access probe and before any partition data
request — the trace at the raise is exactly the estimator request followed
by the metadata request — but after those two HTTP requests, so not before
every HTTP request as claimed. -/
theorem c8_skip_error_before_probe (base_uri key : String)
    (fields0 : Option (List String)) (s : Int) (live : Bool) (avg : Nat)
    (entry_count cpu_count : Nat) (server : Nat → Nat → Option (List Nat))
    (fs0 : FileSystem) (hs0 : 0 ≤ s) (havg : avg ≠ 0)
    (hskip : (entry_count : Int) - s < 1) :
    get_data_run base_uri key fields0 (some s) none none live avg entry_count
        cpu_count server fs0 =
      ([.estimateReq, .metaReq], fs0, .error .skipBeyondRows) := by
  have hns : ¬ (s < 0) := by omega
  simp [get_data_run, plan_phase, Option.any, hns, havg, hskip, Except.map]

/-- C8 witness: skip 10 on a 5-row stream with a successful estimator: the
call raises the skip error with exactly the estimator and metadata requests
in the trace. -/
theorem c8_skip_error_before_probe_witness :
    ((0 : Int) ≤ 10) ∧ (100 : Nat) ≠ 0 ∧ ((5 : Nat) : Int) - 10 < 1 ∧
    get_data_run "B" "k" none (some 10) none none false 100 5 4
        (fun _ _ => none) [] =
      ([.estimateReq, .metaReq], [], .error .skipBeyondRows) :=
  ⟨by decide, by decide, by decide,
    c8_skip_error_before_probe "B" "k" none 10 false 100 5 4 (fun _ _ => none) []
      (by decide) (by decide) (by decide)⟩

/-- C8 counterexample: for skip 10 on a 5-row stream the configuration error
is indeed raised, but the event trace at the moment of the raise already
contains the row-size estimation request and the metadata request — two HTTP
requests — so the error is not raised before any HTTP request. -/
theorem c8_counterexample :
    (get_data_run "B" "k" none (some 10) none none false 100 5 4
        (fun _ _ => none) []).2.2 = .error .skipBeyondRows ∧
    (get_data_run "B" "k" none (some 10) none none false 100 5 4
        (fun _ _ => none) []).1 = [.estimateReq, .metaReq] ∧
    ([Ev.estimateReq, Ev.metaReq] : List Ev) ≠ [] := by
  exact ⟨rfl, rfl, by decide⟩

/-- C9 (amended): the probe derives its temporary path with the same naming
scheme as the main fetch, and the name depends only on the offset, not on
the partition's row count, so the probe's path coincides with the cache path
of every offset-0 partition; with live false and a pre-existing cache file
at that path — of any content — the probe treats it as a hit and its cleanup
unlinks it, deleting the main-fetch cache entry, which a later identical
call must then re-download. -/
theorem c9_probe_deletes_offset0_cache (base_uri key : String) (limit : Option Int)
    (fields : Option (List String)) (query : Option String)
    (server : Nat → Nat → Option (List Nat)) (fs0 : FileSystem)
    (cnt : Nat) (c : FileContent)
    (hc : fsGet fs0 (partition_cache_path base_uri key limit fields query (0, cnt)) =
      some c) :
    partition_cache_path base_uri key limit fields query (0, cnt) =
      partition_cache_path base_uri key limit fields query (0, 12) ∧
    fsGet (probe_phase base_uri key limit fields query false server fs0).fs
      (partition_cache_path base_uri key limit fields query (0, cnt)) = none := by
  refine ⟨rfl, ?_⟩
  unfold partition_cache_path at hc ⊢
  simp [probe_phase, get_data_from_fusionbase, hc, fsGet_fsDel]

/-- C9 witness: a corrupt cached file at the path of partition (0, 7) of an
unlimited fetch is deleted by the probe of the same call. -/
theorem c9_probe_deletes_offset0_cache_witness :
    fsGet c9_fs2 (partition_cache_path "B" "k2" none none none (0, 7)) =
      some .corrupt ∧
    (partition_cache_path "B" "k2" none none none (0, 7) =
        partition_cache_path "B" "k2" none none none (0, 12) ∧
      fsGet (probe_phase "B" "k2" none none none false (fun _ _ => none) c9_fs2).fs
        (partition_cache_path "B" "k2" none none none (0, 7)) = none) :=
  ⟨rfl, c9_probe_deletes_offset0_cache "B" "k2" none none none (fun _ _ => none)
    c9_fs2 7 .corrupt rfl⟩

/-- C9 counterexample: for the limit-40 call whose plan is
[(0, 19), (19, 19), (38, 2)], a valid cached file exists at the path the
main-fetch partition (0, 19) derives for itself; running the probe with live
false deletes that file — the probe removes a cache file at a path derived
by a main-fetch partition of the same call, refuting the claim. -/
theorem c9_counterexample :
    (plan_phase none none (some 40) none 1 1000 3).2 =
      .ok ⟨[(0, 19), (19, 19), (38, 2)], none, some 40⟩ ∧
    fsGet c9_fs (partition_cache_path "B" "k" (some 40) none none (0, 19)) =
      some (.gzipJson [1, 2]) ∧
    fsGet (probe_phase "B" "k" (some 40) none none false (fun _ _ => none) c9_fs).fs
      (partition_cache_path "B" "k" (some 40) none none (0, 19)) = none := by
  exact ⟨rfl, rfl, rfl⟩
